import Mathlib

/-!
Shallow embedding of `truncate/table_schema.go` from the spanner-truncate
repository: the schema-discovery core (table relationship discovery, index
relationship discovery, and the include/exclude selection policy), together
with proofs of the specified properties.

The Spanner client is modelled as the stream of rows its catalog query
returns: a list of per-row outcomes (a decoded row, or the error that
`r.Columns` would return for a malformed row) followed by an optional
terminal error of the query itself (network failure, cancellation).
`iter.Do` is modelled by `iterDo`, which folds the per-row callback over the
stream and aborts with the first error, exactly as the Go iterator does.
-/

namespace SpannerTruncate

/-- Errors surfaced by the Spanner client: a failure of the query itself,
a failure to decode one row (`r.Columns`), or a context cancellation. -/
inductive SpannerError where
  | queryFailed (msg : String)
  | decodeFailed (msg : String)
  | cancelled
deriving DecidableEq, Repr

/-- `deleteActionType` is action type on parent delete
(`type deleteActionType int`, constants via iota). -/
inductive deleteActionType where
  | deleteActionUndefined
  | deleteActionCascadeDelete
  | deleteActionNoAction
deriving DecidableEq, Repr

export deleteActionType (deleteActionUndefined deleteActionCascadeDelete deleteActionNoAction)

/-- `tableSchema` represents table metadata and relationships. -/
structure tableSchema where
  tableName : String
  parentTableName : String
  parentOnDeleteAction : deleteActionType
  referencedBy : List String
deriving DecidableEq, Repr

/-- `indexSchema` represents secondary index metadata. -/
structure indexSchema where
  indexName : String
  baseTableName : String
  parentTableName : String
deriving DecidableEq, Repr

/-- One decoded row of the table-discovery catalog query:
`T.TABLE_NAME, T.PARENT_TABLE_NAME, T.ON_DELETE_ACTION, referencedBy`.
The two `spanner.NullString` columns are modelled as `Option String`. -/
structure tableRow where
  tableName : String
  parent : Option String
  deleteAction : Option String
  referencedBy : List String
deriving DecidableEq, Repr

/-- One decoded row of the index-discovery catalog query:
`INDEX_NAME, TABLE_NAME, PARENT_TABLE_NAME`. -/
structure indexRow where
  indexName : String
  baseTableName : String
  parent : Option String
deriving DecidableEq, Repr

/-- `iter.Do` of the row iterator: feed each row outcome to the callback in
order, abort with the first error the callback returns; once the stream is
exhausted, surface the query's terminal error if there is one. -/
def iterDo {ρ σ : Type} (f : σ → ρ → Except SpannerError σ) :
    σ → List ρ → Option SpannerError → Except SpannerError σ
  | s, [], none => .ok s
  | _, [], some e => .error e
  | s, r :: rs, term =>
    match f s r with
    | .error e => .error e
    | .ok s' => iterDo f s' rs term

/-- Decoding of `T.ON_DELETE_ACTION` in the table callback:
`var typ deleteActionType` (zero value `deleteActionUndefined`), then,
when the column is non-null, `switch` on `"CASCADE"` / `"NO ACTION"`. -/
def decodeDeleteAction : Option String → deleteActionType
  | none => deleteActionUndefined
  | some s =>
    if s = "CASCADE" then deleteActionCascadeDelete
    else if s = "NO ACTION" then deleteActionNoAction
    else deleteActionUndefined

/-- The descriptor built from one decoded row: `parentTableName` stays the
zero value `""` when the nullable parent column is null. -/
def toTableSchema (row : tableRow) : tableSchema :=
  { tableName := row.tableName
    parentTableName := row.parent.getD ""
    parentOnDeleteAction := decodeDeleteAction row.deleteAction
    referencedBy := row.referencedBy }

/-- The per-row callback of `fetchTableSchemas`: a malformed row aborts with
its decode error; otherwise, unless `truncateAll`, the row is skipped when
its name is in `excludes` (when `excludes` is non-empty) or absent from
`targets` (when `excludes` is empty); a surviving row appends a descriptor.
The Go maps `targets`/`excludes` are modelled by membership in the lists
they were built from. -/
def tableRowCallback (truncateAll : Bool) (targets excludes : List String)
    (tables : List tableSchema) (raw : Except SpannerError tableRow) :
    Except SpannerError (List tableSchema) :=
  match raw with
  | .error e => .error e
  | .ok row =>
    if !truncateAll then
      if !excludes.isEmpty then
        if excludes.contains row.tableName then .ok tables
        else .ok (tables ++ [toTableSchema row])
      else
        if !(targets.contains row.tableName) then .ok tables
        else .ok (tables ++ [toTableSchema row])
    else .ok (tables ++ [toTableSchema row])

/-- `fetchTableSchemas`: run the catalog query (modelled by its row stream
`rows` and terminal outcome `streamErr`) and fold the callback over it.
`truncateAll` is true exactly when both selection lists are empty. -/
def fetchTableSchemas (targetTables excludeTables : List String)
    (rows : List (Except SpannerError tableRow)) (streamErr : Option SpannerError) :
    Except SpannerError (List tableSchema) :=
  iterDo (tableRowCallback (targetTables.isEmpty && excludeTables.isEmpty) targetTables excludeTables)
    [] rows streamErr

/-- The descriptor built from one decoded index row. -/
def toIndexSchema (row : indexRow) : indexSchema :=
  { indexName := row.indexName
    baseTableName := row.baseTableName
    parentTableName := row.parent.getD "" }

/-- The per-row callback of `fetchIndexSchemas`: a malformed row aborts with
its decode error; every well-formed row appends a descriptor — no selection
filtering of any kind. -/
def indexRowCallback (indexes : List indexSchema) (raw : Except SpannerError indexRow) :
    Except SpannerError (List indexSchema) :=
  match raw with
  | .error e => .error e
  | .ok row => .ok (indexes ++ [toIndexSchema row])

/-- `fetchIndexSchemas`: run the secondary-index catalog query and fold the
callback over its row stream. -/
def fetchIndexSchemas (rows : List (Except SpannerError indexRow))
    (streamErr : Option SpannerError) : Except SpannerError (List indexSchema) :=
  iterDo indexRowCallback [] rows streamErr

/-- The selection decision `fetchTableSchemas` makes for a table name, read
off from the callback's skip conditions. -/
def selectTable (targetTables excludeTables : List String) (name : String) : Bool :=
  (targetTables.isEmpty && excludeTables.isEmpty) ||
    (if !excludeTables.isEmpty then !(excludeTables.contains name)
     else targetTables.contains name)

/-- The selection rule exactly as the spec words it, for comparison with the
code's behaviour: both lists empty selects everything; a non-empty exclude
list selects iff the name is absent from it (include ignored); otherwise a
non-empty include list selects iff the name is present in it. -/
def specSelectTable (includeList excludeList : List String) (name : String) : Bool :=
  if includeList = [] ∧ excludeList = [] then true
  else if excludeList ≠ [] then decide (name ∉ excludeList)
  else decide (name ∈ includeList)

/-! ### Behaviour of the row-stream fold -/

/-- The table callback on a well-formed row either appends the row's
descriptor or keeps the accumulator, according to `selectTable`. -/
lemma tableRowCallback_ok (targetTables excludeTables : List String)
    (tables : List tableSchema) (row : tableRow) :
    tableRowCallback (targetTables.isEmpty && excludeTables.isEmpty) targetTables excludeTables
      tables (.ok row)
    = .ok (if selectTable targetTables excludeTables row.tableName
           then tables ++ [toTableSchema row] else tables) := by
  simp only [tableRowCallback, selectTable]
  by_cases hall : (targetTables.isEmpty && excludeTables.isEmpty) = true
  · simp [hall]
  · simp only [hall, Bool.not_false, if_true, Bool.false_or]
    by_cases hexc : excludeTables.isEmpty
    · simp [hexc, apply_ite]
    · by_cases hmem : excludeTables.contains row.tableName <;>
        simp [hexc, hmem, apply_ite]

/-- For any callback that fails exactly on malformed rows, a stream whose
rows are all well-formed and whose first malformed row carries error `e`
makes the whole fold abort with `e`. -/
lemma iterDo_append_error {ρ σ : Type}
    (f : σ → Except SpannerError ρ → Except SpannerError σ)
    (hok : ∀ s r, ∃ s', f s (.ok r) = .ok s')
    (herr : ∀ s e, f s (.error e) = .error e)
    (acc : σ) (pre : List ρ) (e : SpannerError)
    (rest : List (Except SpannerError ρ)) (term : Option SpannerError) :
    iterDo f acc (pre.map .ok ++ .error e :: rest) term = .error e := by
  induction pre generalizing acc with
  | nil => simp [iterDo, herr]
  | cons r rs ih =>
    obtain ⟨s', hs'⟩ := hok acc r
    simp [iterDo, hs', ih]

/-- A stream of well-formed rows whose query nevertheless ends in error `e`
makes the whole fold abort with `e`. -/
lemma iterDo_terminal_error {ρ σ : Type}
    (f : σ → Except SpannerError ρ → Except SpannerError σ)
    (hok : ∀ s r, ∃ s', f s (.ok r) = .ok s')
    (acc : σ) (rows : List ρ) (e : SpannerError) :
    iterDo f acc (rows.map .ok) (some e) = .error e := by
  induction rows generalizing acc with
  | nil => simp [iterDo]
  | cons r rs ih =>
    obtain ⟨s', hs'⟩ := hok acc r
    simp [iterDo, hs', ih]

/-- Success inversion: when a callback fails exactly on malformed rows, a
successful fold means every row of the stream was well-formed and the query
itself ended cleanly. -/
lemma iterDo_ok_inv {ρ σ : Type}
    (f : σ → Except SpannerError ρ → Except SpannerError σ)
    (herr : ∀ s e, f s (.error e) = .error e)
    (rows : List (Except SpannerError ρ)) (term : Option SpannerError)
    (acc : σ) (ts : σ) :
    iterDo f acc rows term = .ok ts →
    ∃ okRows : List ρ, rows = okRows.map .ok ∧ term = none := by
  induction rows generalizing acc with
  | nil =>
    intro h
    cases term with
    | none => exact ⟨[], rfl, rfl⟩
    | some e => simp [iterDo] at h
  | cons r rs ih =>
    intro h
    cases r with
    | error e => simp [iterDo, herr] at h
    | ok r =>
      simp only [iterDo] at h
      cases hf : f acc (.ok r) with
      | error e => rw [hf] at h; simp at h
      | ok s' =>
        rw [hf] at h
        obtain ⟨okRows, hrows, hterm⟩ := ih s' h
        exact ⟨r :: okRows, by simp [hrows], hterm⟩

/-- The table-discovery fold over a clean stream succeeds and appends the
descriptors of exactly the selected rows, in stream order. -/
lemma iterDo_tables_ok (targetTables excludeTables : List String)
    (acc : List tableSchema) (rows : List tableRow) :
    iterDo (tableRowCallback (targetTables.isEmpty && excludeTables.isEmpty)
        targetTables excludeTables) acc (rows.map .ok) none
    = .ok (acc ++ ((rows.filter
        (fun r => selectTable targetTables excludeTables r.tableName)).map toTableSchema)) := by
  induction rows generalizing acc with
  | nil => simp [iterDo]
  | cons r rs ih =>
    simp only [List.map_cons, iterDo, tableRowCallback_ok]
    by_cases hsel : selectTable targetTables excludeTables r.tableName
    · simp [hsel, ih, List.filter_cons]
    · simp [hsel, ih, List.filter_cons]

/-- The index-discovery fold over a clean stream succeeds and appends one
descriptor per row, unconditionally. -/
lemma iterDo_indexes_ok (acc : List indexSchema) (rows : List indexRow) :
    iterDo indexRowCallback acc (rows.map .ok) none
    = .ok (acc ++ rows.map toIndexSchema) := by
  induction rows generalizing acc with
  | nil => simp [iterDo]
  | cons r rs ih => simp [iterDo, indexRowCallback, ih]

/-- The table callback never fails on a well-formed row. -/
lemma tableRowCallback_ok_exists (targets excludes : List String)
    (tables : List tableSchema) (row : tableRow) :
    ∃ ts, tableRowCallback (targets.isEmpty && excludes.isEmpty) targets excludes
      tables (.ok row) = .ok ts :=
  ⟨if selectTable targets excludes row.tableName
   then tables ++ [toTableSchema row] else tables, tableRowCallback_ok _ _ _ _⟩

/-- The index callback never fails on a well-formed row. -/
lemma indexRowCallback_ok_exists (indexes : List indexSchema) (row : indexRow) :
    ∃ is, indexRowCallback indexes (.ok row) = .ok is :=
  ⟨indexes ++ [toIndexSchema row], rfl⟩

/-! ### Claims -/

/-- C1: the selection decision of table discovery agrees pointwise with the
spec's stated policy (both lists empty selects everything; a non-empty
exclude list selects iff the name is absent from it, ignoring include;
otherwise a non-empty include list selects iff the name is present), and
over a clean row stream the returned collection holds a descriptor for
exactly the selected rows. -/
theorem C1_selection_policy (includeList excludeList : List String) (rows : List tableRow) :
    (∀ name, selectTable includeList excludeList name
      = specSelectTable includeList excludeList name) ∧
    fetchTableSchemas includeList excludeList (rows.map .ok) none
      = .ok ((rows.filter
          (fun r => specSelectTable includeList excludeList r.tableName)).map toTableSchema) := by
  have hpt : ∀ name, selectTable includeList excludeList name
      = specSelectTable includeList excludeList name := by
    intro name
    simp only [selectTable, specSelectTable]
    by_cases ht : includeList = [] <;> by_cases he : excludeList = [] <;>
      simp [ht, he, List.isEmpty_iff, decide_not]
  refine ⟨hpt, ?_⟩
  rw [fetchTableSchemas, iterDo_tables_ok, List.nil_append]
  congr 1
  congr 1
  exact List.filter_congr fun r _ => hpt r.tableName

/-- C2: any row-decode error or terminal query error makes both discovery
operations return that error unchanged, with no descriptor collection — the
`Except.error` result carries the untouched error and no partial list. -/
theorem C2_atomic_failure (targetTables excludeTables : List String)
    (pre : List tableRow) (rest : List (Except SpannerError tableRow))
    (term : Option SpannerError) (okRows : List tableRow)
    (ipre : List indexRow) (irest : List (Except SpannerError indexRow))
    (iterm : Option SpannerError) (iokRows : List indexRow) (e : SpannerError) :
    fetchTableSchemas targetTables excludeTables (pre.map .ok ++ .error e :: rest) term
      = .error e ∧
    fetchTableSchemas targetTables excludeTables (okRows.map .ok) (some e) = .error e ∧
    fetchIndexSchemas (ipre.map .ok ++ .error e :: irest) iterm = .error e ∧
    fetchIndexSchemas (iokRows.map .ok) (some e) = .error e :=
  ⟨iterDo_append_error _ (tableRowCallback_ok_exists _ _) (fun _ _ => rfl) _ _ _ _ _,
   iterDo_terminal_error _ (tableRowCallback_ok_exists _ _) _ _ _,
   iterDo_append_error _ indexRowCallback_ok_exists (fun _ _ => rfl) _ _ _ _ _,
   iterDo_terminal_error _ indexRowCallback_ok_exists _ _ _⟩

/-- C3: the on-delete-action text decodes as `"CASCADE"` ↦ cascadeDelete,
`"NO ACTION"` ↦ noAction, any other or absent value ↦ undefined, and each
descriptor's `parentOnDeleteAction` is exactly this decoding of its row. -/
theorem C3_delete_action_decoding :
    decodeDeleteAction (some "CASCADE") = deleteActionCascadeDelete ∧
    decodeDeleteAction (some "NO ACTION") = deleteActionNoAction ∧
    decodeDeleteAction none = deleteActionUndefined ∧
    (∀ s, s ≠ "CASCADE" → s ≠ "NO ACTION" →
      decodeDeleteAction (some s) = deleteActionUndefined) ∧
    (∀ row : tableRow,
      (toTableSchema row).parentOnDeleteAction = decodeDeleteAction row.deleteAction) := by
  refine ⟨rfl, rfl, rfl, ?_, fun row => rfl⟩
  intro s h1 h2
  simp [decodeDeleteAction, h1, h2]

/-- Witness for C3 at the concrete action text `"RESTRICT"`. -/
theorem C3_delete_action_decoding_witness :
    "RESTRICT" ≠ "CASCADE" ∧ "RESTRICT" ≠ "NO ACTION" ∧
    decodeDeleteAction (some "RESTRICT") = deleteActionUndefined :=
  ⟨by decide, by decide,
   C3_delete_action_decoding.2.2.2.1 "RESTRICT" (by decide) (by decide)⟩

/-- C4 counterexample: the code decodes the on-delete action without
consulting the parent column, so a row whose parent column is null but whose
action column reads `"CASCADE"` yields a descriptor with an absent (empty)
parent name yet a `deleteActionCascadeDelete` action, contradicting the
claim that a null parent always yields `deleteActionUndefined`. -/
theorem C4_counterexample :
    (⟨"Child", none, some "CASCADE", []⟩ : tableRow).parent = none ∧
    fetchTableSchemas [] [] [.ok ⟨"Child", none, some "CASCADE", []⟩] none
      = .ok [toTableSchema ⟨"Child", none, some "CASCADE", []⟩] ∧
    (toTableSchema ⟨"Child", none, some "CASCADE", []⟩).parentTableName = "" ∧
    (toTableSchema ⟨"Child", none, some "CASCADE", []⟩).parentOnDeleteAction
      ≠ deleteActionUndefined :=
  ⟨rfl, rfl, rfl, by decide⟩

/-- C4 (amended): for every row whose parent column is null, the descriptor's
parent name is absent (the empty string), its descriptor is returned as
decoded, and its action is `deleteActionUndefined` provided the
on-delete-action column is also null — the action is decoded independently
of the parent column. -/
theorem C4_no_parent_amended (row : tableRow) (hp : row.parent = none) :
    (toTableSchema row).parentTableName = "" ∧
    fetchTableSchemas [] [] [.ok row] none = .ok [toTableSchema row] ∧
    (row.deleteAction = none →
      (toTableSchema row).parentOnDeleteAction = deleteActionUndefined) := by
  refine ⟨by simp [toTableSchema, hp], rfl, ?_⟩
  intro hd
  simp [toTableSchema, decodeDeleteAction, hd]

/-- Witness for the amended C4 at a concrete parentless row. -/
theorem C4_no_parent_amended_witness :
    (⟨"Root", none, none, []⟩ : tableRow).parent = none ∧
    (toTableSchema ⟨"Root", none, none, []⟩).parentTableName = "" ∧
    fetchTableSchemas [] [] [.ok ⟨"Root", none, none, []⟩] none
      = .ok [toTableSchema ⟨"Root", none, none, []⟩] ∧
    (toTableSchema ⟨"Root", none, none, []⟩).parentOnDeleteAction
      = deleteActionUndefined :=
  ⟨rfl, (C4_no_parent_amended ⟨"Root", none, none, []⟩ rfl).1,
   (C4_no_parent_amended ⟨"Root", none, none, []⟩ rfl).2.1,
   (C4_no_parent_amended ⟨"Root", none, none, []⟩ rfl).2.2 rfl⟩

/-- C5: over a clean row stream sorted ascending by table name (the order
the catalog query produces) and any selection lists, the returned collection
is sorted by name ascending; with both lists empty it is all rows, in order. -/
theorem C5_sorted_output (targetTables excludeTables : List String) (rows : List tableRow)
    (hs : rows.Pairwise (fun a b => a.tableName ≤ b.tableName)) :
    fetchTableSchemas targetTables excludeTables (rows.map .ok) none
      = .ok ((rows.filter
          (fun r => selectTable targetTables excludeTables r.tableName)).map toTableSchema) ∧
    ((rows.filter
        (fun r => selectTable targetTables excludeTables r.tableName)).map toTableSchema).Pairwise
      (fun a b => a.tableName ≤ b.tableName) ∧
    (targetTables = [] → excludeTables = [] →
      (rows.filter
        (fun r => selectTable targetTables excludeTables r.tableName)).map toTableSchema
      = rows.map toTableSchema) := by
  refine ⟨?_, ?_, ?_⟩
  · rw [fetchTableSchemas, iterDo_tables_ok, List.nil_append]
  · rw [List.pairwise_map]
    exact List.Pairwise.sublist (List.filter_sublist rows) hs
  · intro ht he
    subst ht he
    congr 1
    apply List.filter_eq_self.mpr
    intro r _
    rfl

/-- Witness for C5 over the concrete sorted schema `{A, B, C}` with include
`{"A"}` and exclude `{"C"}`. -/
theorem C5_sorted_output_witness :
    ([⟨"A", none, none, []⟩, ⟨"B", none, none, []⟩, ⟨"C", none, none, []⟩] :
        List tableRow).Pairwise (fun a b => a.tableName ≤ b.tableName) ∧
    fetchTableSchemas ["A"] ["C"]
      (([⟨"A", none, none, []⟩, ⟨"B", none, none, []⟩, ⟨"C", none, none, []⟩] :
        List tableRow).map .ok) none
      = .ok ((([⟨"A", none, none, []⟩, ⟨"B", none, none, []⟩, ⟨"C", none, none, []⟩] :
          List tableRow).filter
          (fun r => selectTable ["A"] ["C"] r.tableName)).map toTableSchema) ∧
    ((([⟨"A", none, none, []⟩, ⟨"B", none, none, []⟩, ⟨"C", none, none, []⟩] :
        List tableRow).filter
        (fun r => selectTable ["A"] ["C"] r.tableName)).map toTableSchema).Pairwise
      (fun a b => a.tableName ≤ b.tableName) := by
  have hs : ([⟨"A", none, none, []⟩, ⟨"B", none, none, []⟩, ⟨"C", none, none, []⟩] :
      List tableRow).Pairwise (fun a b => a.tableName ≤ b.tableName) := by
    simp [String.le_iff_toList_le]
    refine ⟨⟨?_, ?_⟩, ?_⟩ <;> decide
  exact ⟨hs, (C5_sorted_output ["A"] ["C"] _ hs).1, (C5_sorted_output ["A"] ["C"] _ hs).2.1⟩

/-- C6: over a clean stream of secondary-index catalog rows, index discovery
returns exactly one descriptor per row — index name, base table name, and
optional interleaved parent (empty when absent, i.e. a global index) — with
no include/exclude filtering applied to any row. -/
theorem C6_index_completeness (rows : List indexRow) :
    fetchIndexSchemas (rows.map .ok) none = .ok (rows.map toIndexSchema) ∧
    (rows.map toIndexSchema).length = rows.length ∧
    ∀ r : indexRow, toIndexSchema r =
      { indexName := r.indexName, baseTableName := r.baseTableName,
        parentTableName := r.parent.getD "" } := by
  refine ⟨?_, rows.length_map _, fun r => rfl⟩
  rw [fetchIndexSchemas, iterDo_indexes_ok, List.nil_append]

/-- C7: whatever the stream and the selection lists, a successful table
discovery only returns descriptors whose names come from rows of the stream;
no descriptor carries a name absent from the schema. -/
theorem C7_subset_invariant (targetTables excludeTables : List String)
    (rows : List (Except SpannerError tableRow)) (term : Option SpannerError)
    (ts : List tableSchema)
    (h : fetchTableSchemas targetTables excludeTables rows term = .ok ts) :
    ∀ s, s ∈ ts → ∃ r : tableRow, Except.ok r ∈ rows ∧ r.tableName = s.tableName := by
  obtain ⟨okRows, hrows, hterm⟩ :=
    iterDo_ok_inv _ (fun _ _ => rfl) rows term [] ts h
  subst hrows; subst hterm
  rw [fetchTableSchemas, iterDo_tables_ok, List.nil_append] at h
  simp only [Except.ok.injEq] at h
  intro s hmem
  rw [← h] at hmem
  obtain ⟨r, hrf, hrs⟩ := List.mem_map.mp hmem
  have hr : r ∈ okRows := List.mem_of_mem_filter hrf
  exact ⟨r, List.mem_map_of_mem _ hr, by rw [← hrs]; rfl⟩

/-- Witness for C7 over the concrete schema `{A, B}` with include `{"A"}`. -/
theorem C7_subset_invariant_witness :
    fetchTableSchemas ["A"] []
      [.ok ⟨"A", none, none, []⟩, .ok ⟨"B", none, none, []⟩] none
      = .ok [toTableSchema ⟨"A", none, none, []⟩] ∧
    toTableSchema ⟨"A", none, none, []⟩ ∈ [toTableSchema ⟨"A", none, none, []⟩] ∧
    ∃ r : tableRow,
      Except.ok r ∈ ([.ok ⟨"A", none, none, []⟩, .ok ⟨"B", none, none, []⟩] :
        List (Except SpannerError tableRow)) ∧
      r.tableName = (toTableSchema ⟨"A", none, none, []⟩).tableName := by
  have h0 : fetchTableSchemas ["A"] []
      [.ok ⟨"A", none, none, []⟩, .ok ⟨"B", none, none, []⟩] none
      = .ok [toTableSchema ⟨"A", none, none, []⟩] := rfl
  have hmem : toTableSchema ⟨"A", none, none, []⟩
      ∈ [toTableSchema ⟨"A", none, none, []⟩] := List.mem_singleton.mpr rfl
  exact ⟨h0, hmem, C7_subset_invariant ["A"] [] _ none _ h0 _ hmem⟩

/-- C8: a context cancellation, modelled as the row stream ending in
`SpannerError.cancelled`, makes both discovery operations return the
cancellation error — never a success built from the rows streamed so far. -/
theorem C8_cancellation (targetTables excludeTables : List String)
    (tRows : List tableRow) (iRows : List indexRow) :
    fetchTableSchemas targetTables excludeTables (tRows.map .ok)
      (some SpannerError.cancelled) = .error SpannerError.cancelled ∧
    fetchIndexSchemas (iRows.map .ok) (some SpannerError.cancelled)
      = .error SpannerError.cancelled :=
  ⟨iterDo_terminal_error _ (tableRowCallback_ok_exists _ _) _ _ _,
   iterDo_terminal_error _ indexRowCallback_ok_exists _ _ _⟩

/-- C9: in both table and index descriptors, absence of a parent is encoded
as the empty string — `parentTableName` is `""` iff the catalog parent
column is null or the literal empty string, so those two cases are
indistinguishable in the returned model. -/
theorem C9_empty_string_parent :
    (∀ r : tableRow, ((toTableSchema r).parentTableName = ""
       ↔ (r.parent = none ∨ r.parent = some ""))) ∧
    (∀ q : indexRow, ((toIndexSchema q).parentTableName = ""
       ↔ (q.parent = none ∨ q.parent = some ""))) ∧
    (∀ r : tableRow, toTableSchema { r with parent := some "" }
       = toTableSchema { r with parent := none }) ∧
    (∀ q : indexRow, toIndexSchema { q with parent := some "" }
       = toIndexSchema { q with parent := none }) := by
  refine ⟨fun r => ?_, fun q => ?_, fun r => rfl, fun q => rfl⟩
  · cases hp : r.parent <;> simp [toTableSchema, hp]
  · cases hp : q.parent <;> simp [toIndexSchema, hp]

/-- C10: decoding precedes filtering — the callback aborts on a malformed
row before the selection lists are consulted, so whatever the lists are
(including ones that would have skipped every row), a stream containing a
malformed row makes table discovery fail with that decode error. -/
theorem C10_decode_precedes_filtering (targetTables excludeTables : List String)
    (pre : List tableRow) (e : SpannerError)
    (rest : List (Except SpannerError tableRow)) (term : Option SpannerError) :
    fetchTableSchemas targetTables excludeTables (pre.map .ok ++ .error e :: rest) term
      = .error e ∧
    ∀ (tAll : Bool) (acc : List tableSchema),
      tableRowCallback tAll targetTables excludeTables acc (.error e) = .error e :=
  ⟨iterDo_append_error _ (tableRowCallback_ok_exists _ _) (fun _ _ => rfl) _ _ _ _ _,
   fun _ _ => rfl⟩

end SpannerTruncate
